import Mathlib

/-
Verification of the software 3D wireframe renderer in src/main.cpp.

Shallow embedding conventions:
* C++ `float` is modelled as ℚ (exact rational arithmetic); float literals
  such as 0.5f, 0.2f, 0.1f are modelled as the rationals 1/2, 1/5, 1/10.
* C++ `int` is modelled as ℤ; `size_t` comparisons against an `int` follow
  the C++ integral conversion: the int is converted to the unsigned 64-bit
  type, modelled as reduction modulo 2^64 (`intToSizeT`).
* Globals mutated by a function (`currentColor`, `framebuffer`, the camera
  state) are passed and returned explicitly.
* `std::vector` is a Lean `List`; `operator[]` is `List.getD`.
* Transcendental values (`cos`, `sin`, `tan`) are not rational; functions
  of an angle are therefore parametrised directly by the cosine/sine
  (resp. tangent) value that the source computes from the angle.
-/

namespace Lab4

/-- `Vec3` from src/main.cpp (struct Vec3): three float components,
default-constructed to 0. -/
structure Vec3 where
  x : ℚ
  y : ℚ
  z : ℚ
deriving DecidableEq, Repr

/-- `Vec3::operator-` (componentwise subtraction). -/
def Vec3.sub (a b : Vec3) : Vec3 := ⟨a.x - b.x, a.y - b.y, a.z - b.z⟩

/-- `Mat4` from src/main.cpp (struct Mat4): a 4x4 float matrix, row-major;
field `mij` is the source's `m[i][j]`. -/
structure Mat4 where
  m00 : ℚ
  m01 : ℚ
  m02 : ℚ
  m03 : ℚ
  m10 : ℚ
  m11 : ℚ
  m12 : ℚ
  m13 : ℚ
  m20 : ℚ
  m21 : ℚ
  m22 : ℚ
  m23 : ℚ
  m30 : ℚ
  m31 : ℚ
  m32 : ℚ
  m33 : ℚ
deriving DecidableEq, Repr

/-- `Mat4::Mat4()`: the default constructor initialises the identity matrix. -/
def Mat4.identity : Mat4 :=
  ⟨1, 0, 0, 0,
   0, 1, 0, 0,
   0, 0, 1, 0,
   0, 0, 0, 1⟩

/-- `Mat4::multiply(const Vec3&)` (src/main.cpp lines 52-61): homogeneous
matrix-vector product. Computes `w` from the last row (with implicit input
w = 1), substitutes `w := 1` when `w == 0`, and divides the first three
row-dot-products by it. -/
def Mat4.multiply (m : Mat4) (v : Vec3) : Vec3 :=
  let w := m.m30 * v.x + m.m31 * v.y + m.m32 * v.z + m.m33
  let w2 := if w = 0 then 1 else w
  ⟨(m.m00 * v.x + m.m01 * v.y + m.m02 * v.z + m.m03) / w2,
   (m.m10 * v.x + m.m11 * v.y + m.m12 * v.z + m.m13) / w2,
   (m.m20 * v.x + m.m21 * v.y + m.m22 * v.z + m.m23) / w2⟩

/-- `Mat4::operator*` (src/main.cpp lines 64-75): standard row-by-column
matrix product; the source's triple loop is unrolled into the 16 entries. -/
def Mat4.mul (A B : Mat4) : Mat4 where
  m00 := A.m00 * B.m00 + A.m01 * B.m10 + A.m02 * B.m20 + A.m03 * B.m30
  m01 := A.m00 * B.m01 + A.m01 * B.m11 + A.m02 * B.m21 + A.m03 * B.m31
  m02 := A.m00 * B.m02 + A.m01 * B.m12 + A.m02 * B.m22 + A.m03 * B.m32
  m03 := A.m00 * B.m03 + A.m01 * B.m13 + A.m02 * B.m23 + A.m03 * B.m33
  m10 := A.m10 * B.m00 + A.m11 * B.m10 + A.m12 * B.m20 + A.m13 * B.m30
  m11 := A.m10 * B.m01 + A.m11 * B.m11 + A.m12 * B.m21 + A.m13 * B.m31
  m12 := A.m10 * B.m02 + A.m11 * B.m12 + A.m12 * B.m22 + A.m13 * B.m32
  m13 := A.m10 * B.m03 + A.m11 * B.m13 + A.m12 * B.m23 + A.m13 * B.m33
  m20 := A.m20 * B.m00 + A.m21 * B.m10 + A.m22 * B.m20 + A.m23 * B.m30
  m21 := A.m20 * B.m01 + A.m21 * B.m11 + A.m22 * B.m21 + A.m23 * B.m31
  m22 := A.m20 * B.m02 + A.m21 * B.m12 + A.m22 * B.m22 + A.m23 * B.m32
  m23 := A.m20 * B.m03 + A.m21 * B.m13 + A.m22 * B.m23 + A.m23 * B.m33
  m30 := A.m30 * B.m00 + A.m31 * B.m10 + A.m32 * B.m20 + A.m33 * B.m30
  m31 := A.m30 * B.m01 + A.m31 * B.m11 + A.m32 * B.m21 + A.m33 * B.m31
  m32 := A.m30 * B.m02 + A.m31 * B.m12 + A.m32 * B.m22 + A.m33 * B.m32
  m33 := A.m30 * B.m03 + A.m31 * B.m13 + A.m32 * B.m23 + A.m33 * B.m33

instance : Mul Mat4 := ⟨Mat4.mul⟩

theorem Mat4.mul_def (A B : Mat4) : A * B = Mat4.mul A B := rfl

/-- Matrix multiplication as embedded is associative (used to relate the
source's left-to-right product to the right-associated composition). -/
theorem Mat4.mul_assoc3 (A B C : Mat4) : A * B * C = A * (B * C) := by
  show Mat4.mul (Mat4.mul A B) C = Mat4.mul A (Mat4.mul B C)
  simp only [Mat4.mul]
  congr 1 <;> ring

/-- `rotationY(angle)` (src/main.cpp lines 79-90), parametrised by
`c = cos(angle)` and `s = sin(angle)`: identity with the four Y-rotation
entries overwritten. -/
def rotationY (c s : ℚ) : Mat4 :=
  { Mat4.identity with m00 := c, m02 := s, m20 := -s, m22 := c }

/-- `rotationX(angle)` (src/main.cpp lines 93-104), parametrised by
`c = cos(angle)` and `s = sin(angle)`. -/
def rotationX (c s : ℚ) : Mat4 :=
  { Mat4.identity with m11 := c, m12 := -s, m21 := s, m22 := c }

/-- `translation(x, y, z)` (src/main.cpp lines 107-113). -/
def translation (x y z : ℚ) : Mat4 :=
  { Mat4.identity with m03 := x, m13 := y, m23 := z }

/-- `scale(sx, sy, sz)` (src/main.cpp lines 116-122). -/
def scale (sx sy sz : ℚ) : Mat4 :=
  { Mat4.identity with m00 := sx, m11 := sy, m22 := sz }

/-- `perspective(fov, aspect, near, far)` (src/main.cpp lines 125-137).
The source computes `tanHalfFov = tan(fov / 2)`; since `tan` is
transcendental, the embedding takes `tanHalfFov` itself as the parameter. -/
def perspective (tanHalfFov aspect near far : ℚ) : Mat4 :=
  { Mat4.identity with
      m00 := 1 / (aspect * tanHalfFov)
      m11 := 1 / tanHalfFov
      m22 := -(far + near) / (far - near)
      m23 := -(2 * far * near) / (far - near)
      m32 := -1
      m33 := 0 }

/-- C1: `Mat4::multiply` computes `w = m[3][0]*x + m[3][1]*y + m[3][2]*z +
m[3][3]`, replaces `w` by 1 exactly when it equals 0, and returns the first
three row-dot-products of `m` with `(x, y, z, 1)` each divided by that
substituted `w`; the divisor is never zero. -/
theorem multiply_spec (m : Mat4) (v : Vec3) :
    (if m.m30 * v.x + m.m31 * v.y + m.m32 * v.z + m.m33 = 0 then (1 : ℚ)
     else m.m30 * v.x + m.m31 * v.y + m.m32 * v.z + m.m33) ≠ 0 ∧
    m.multiply v =
      ⟨(m.m00 * v.x + m.m01 * v.y + m.m02 * v.z + m.m03) /
         (if m.m30 * v.x + m.m31 * v.y + m.m32 * v.z + m.m33 = 0 then 1
          else m.m30 * v.x + m.m31 * v.y + m.m32 * v.z + m.m33),
       (m.m10 * v.x + m.m11 * v.y + m.m12 * v.z + m.m13) /
         (if m.m30 * v.x + m.m31 * v.y + m.m32 * v.z + m.m33 = 0 then 1
          else m.m30 * v.x + m.m31 * v.y + m.m32 * v.z + m.m33),
       (m.m20 * v.x + m.m21 * v.y + m.m22 * v.z + m.m23) /
         (if m.m30 * v.x + m.m31 * v.y + m.m32 * v.z + m.m33 = 0 then 1
          else m.m30 * v.x + m.m31 * v.y + m.m32 * v.z + m.m33)⟩ := by
  refine ⟨?_, rfl⟩
  split
  · norm_num
  · assumption

/-- `Color` from src/main.cpp (struct Color): four unsigned 8-bit channels,
modelled as naturals. -/
structure Color where
  r : ℕ
  g : ℕ
  b : ℕ
  a : ℕ
deriving DecidableEq, Repr

/-- `SCREEN_WIDTH` (src/main.cpp line 16). -/
def SCREEN_WIDTH : ℤ := 800

/-- `SCREEN_HEIGHT` (src/main.cpp line 17). -/
def SCREEN_HEIGHT : ℤ := 600

/-- `pixel(x, y)` (src/main.cpp lines 181-186): writes the current color at
framebuffer index `y * SCREEN_WIDTH + x` iff `(x, y)` is inside the screen
bounds; otherwise leaves the framebuffer untouched. The global
`currentColor` and `framebuffer` are passed explicitly. -/
def pixel (x y : ℤ) (currentColor : Color) (framebuffer : List Color) :
    List Color :=
  if x ≥ 0 ∧ x < SCREEN_WIDTH ∧ y ≥ 0 ∧ y < SCREEN_HEIGHT then
    framebuffer.set (y * SCREEN_WIDTH + x).toNat currentColor
  else
    framebuffer

/-- C2: the pixel write stores the current color at index
`y * width + x` exactly when `0 ≤ x < width` and `0 ≤ y < height` (and that
index is inside the allocated `width * height` buffer, so no out-of-range
access occurs); for any out-of-bounds `(x, y)` the framebuffer is returned
unchanged and no error is signalled. -/
theorem pixel_spec (x y : ℤ) (c : Color) (fb : List Color) :
    ((x ≥ 0 ∧ x < SCREEN_WIDTH ∧ y ≥ 0 ∧ y < SCREEN_HEIGHT) →
       (y * SCREEN_WIDTH + x).toNat < (SCREEN_WIDTH * SCREEN_HEIGHT).toNat ∧
       pixel x y c fb = fb.set (y * SCREEN_WIDTH + x).toNat c) ∧
    (¬(x ≥ 0 ∧ x < SCREEN_WIDTH ∧ y ≥ 0 ∧ y < SCREEN_HEIGHT) →
       pixel x y c fb = fb) := by
  constructor
  · intro h
    refine ⟨?_, by simp [pixel, h]⟩
    obtain ⟨hx0, hxw, hy0, hyh⟩ := h
    simp only [SCREEN_WIDTH, SCREEN_HEIGHT] at *
    omega
  · intro h
    simp [pixel, h]

/-- Witness for C2: a concrete in-bounds write at (5, 7) into a
full-size framebuffer. -/
theorem pixel_spec_witness :
    (((7 : ℤ) * SCREEN_WIDTH + 5).toNat < (SCREEN_WIDTH * SCREEN_HEIGHT).toNat ∧
      pixel 5 7 ⟨255, 255, 0, 255⟩ (List.replicate 480000 ⟨0, 0, 0, 255⟩) =
        (List.replicate 480000 (⟨0, 0, 0, 255⟩ : Color)).set
          ((7 : ℤ) * SCREEN_WIDTH + 5).toNat ⟨255, 255, 0, 255⟩) :=
  (pixel_spec 5 7 ⟨255, 255, 0, 255⟩ (List.replicate 480000 ⟨0, 0, 0, 255⟩)).1
    (by norm_num [SCREEN_WIDTH, SCREEN_HEIGHT])

/-- The two zoom key handlers from the event loop (src/main.cpp lines
492-500): `SDLK_w` subtracts 0.2 and clamps below at 1, `SDLK_s` adds 0.2
and clamps above at 10. -/
inductive ZoomEvent
| zoomIn
| zoomOut
deriving DecidableEq, Repr

/-- One zoom key event applied to `cameraDistance` (src/main.cpp lines
492-500; 0.2f modelled as 1/5). -/
def applyZoom (e : ZoomEvent) (cameraDistance : ℚ) : ℚ :=
  match e with
  | ZoomEvent.zoomIn =>
      let d := cameraDistance - 1/5
      if d < 1 then 1 else d
  | ZoomEvent.zoomOut =>
      let d := cameraDistance + 1/5
      if d > 10 then 10 else d

/-- A finite sequence of zoom key events, applied in order. -/
def applyZooms (es : List ZoomEvent) (cameraDistance : ℚ) : ℚ :=
  es.foldl (fun d e => applyZoom e d) cameraDistance

theorem applyZoom_mem (e : ZoomEvent) (d : ℚ) (h1 : 1 ≤ d) (h10 : d ≤ 10) :
    1 ≤ applyZoom e d ∧ applyZoom e d ≤ 10 := by
  cases e <;> simp only [applyZoom] <;> split <;> rename_i h <;>
    constructor <;> linarith

/-- C5: starting from any camera distance in [1, 10], any finite sequence
of zoom-in / zoom-out key events (each subtracting or adding 0.2 with
clamping) leaves the camera distance in [1, 10]. -/
theorem zoom_clamped (es : List ZoomEvent) (d : ℚ)
    (h1 : 1 ≤ d) (h10 : d ≤ 10) :
    1 ≤ applyZooms es d ∧ applyZooms es d ≤ 10 := by
  induction es generalizing d with
  | nil => exact ⟨h1, h10⟩
  | cons e es ih =>
      have h := applyZoom_mem e d h1 h10
      simpa [applyZooms, List.foldl_cons] using ih (applyZoom e d) h.1 h.2

/-- Witness for C5: three concrete zoom events starting from distance 5. -/
theorem zoom_clamped_witness :
    (1 : ℚ) ≤ 5 ∧ (5 : ℚ) ≤ 10 ∧
    1 ≤ applyZooms [ZoomEvent.zoomIn, ZoomEvent.zoomIn, ZoomEvent.zoomOut] 5 ∧
    applyZooms [ZoomEvent.zoomIn, ZoomEvent.zoomIn, ZoomEvent.zoomOut] 5 ≤ 10 :=
  ⟨by norm_num, by norm_num,
   (zoom_clamped _ 5 (by norm_num) (by norm_num)).1,
   (zoom_clamped _ 5 (by norm_num) (by norm_num)).2⟩

/-- The model-view-projection matrix built each frame by `render`
(src/main.cpp lines 341-357). Parameters: `cy, sy` are cos/sin of
`cameraAngleY`, `cx, sx` are cos/sin of `cameraAngleX`, `dist` is
`cameraDistance`, `t` is `tan(fov / 2)` for the fixed fov of 45 degrees.
The aspect ratio is the source's `(float)SCREEN_WIDTH / SCREEN_HEIGHT`,
near is 0.1 and far is 100. -/
def mvpMatrix (cy sy cx sx dist t : ℚ) : Mat4 :=
  let modelMatrix := scale 1 1 1
  let rotY := rotationY cy sy
  let rotX := rotationX cx sx
  let rot := rotY * rotX
  let translationMat := translation 0 0 (-dist)
  let aspect : ℚ := 800 / 600
  let projection := perspective t aspect (1/10) 100
  projection * translationMat * rot * modelMatrix

/-- The per-vertex transform of `render` (src/main.cpp lines 361-368):
apply the MVP matrix (with homogeneous divide), then map NDC x, y to
screen coordinates, flipping Y; z is left as produced. -/
def transformVertex (mvp : Mat4) (v : Vec3) : Vec3 :=
  let tv := mvp.multiply v
  ⟨(tv.x + 1) * (1/2) * 800, (1 - tv.y) * (1/2) * 600, tv.z⟩

/-- C4: the combined per-frame transform is exactly the product
`projection * translation(0,0,-distance) * (rotationY * rotationX) * model`
in that order: the source's left-to-right product equals the
right-associated composition (by associativity of the embedded matrix
product), both as matrices and as the transform applied to each vertex. -/
theorem mvp_composition (cy sy cx sx dist t : ℚ) (v : Vec3) :
    mvpMatrix cy sy cx sx dist t =
      perspective t (800 / 600) (1/10) 100 *
        (translation 0 0 (-dist) *
          ((rotationY cy sy * rotationX cx sx) * scale 1 1 1)) ∧
    (mvpMatrix cy sy cx sx dist t).multiply v =
      (perspective t (800 / 600) (1/10) 100 *
        (translation 0 0 (-dist) *
          ((rotationY cy sy * rotationX cx sx) * scale 1 1 1))).multiply v := by
  have h : mvpMatrix cy sy cx sx dist t =
      perspective t (800 / 600) (1/10) 100 *
        (translation 0 0 (-dist) *
          ((rotationY cy sy * rotationX cx sx) * scale 1 1 1)) := by
    simp [mvpMatrix, Mat4.mul_assoc3]
  exact ⟨h, by rw [h]⟩

/-- C6: with yaw = 0 (cos 1, sin 0), pitch = 0 (cos 1, sin 0) and camera
distance 5, the origin vertex is transformed to the exact screen center
(400, 300) = (width/2, height/2), for every value of tan(fov/2). -/
theorem origin_projects_to_center (t : ℚ) :
    (transformVertex (mvpMatrix 1 0 1 0 5 t) ⟨0, 0, 0⟩).x = 400 ∧
    (transformVertex (mvpMatrix 1 0 1 0 5 t) ⟨0, 0, 0⟩).y = 300 := by
  norm_num [transformVertex, mvpMatrix, Mat4.multiply, Mat4.mul_def,
    Mat4.mul, perspective, translation, rotationY, rotationX, scale,
    Mat4.identity]

/-- `std::round` followed by the cast to int (src/main.cpp lines 190-193):
round half away from zero; the rounded value is integral, so the cast is
exact. -/
def roundF (q : ℚ) : ℤ :=
  if q < 0 then -⌊-q + 1/2⌋ else ⌊q + 1/2⌋

/-- The `while (true)` loop of `line` (src/main.cpp lines 201-215), with
explicit fuel. Each iteration records the pixel `(x1, y1)`, breaks once
`(x1, y1) = (x2, y2)`, and otherwise conditionally steps `x1` by `sx` and
`y1` by `sy` with the Bresenham error update; both conditions test the
cached `e2 = 2 * err`. `none` means the fuel ran out before the break. -/
def lineAux (x2 y2 dx dy sx sy : ℤ) :
    ℕ → ℤ → ℤ → ℤ → List (ℤ × ℤ) → Option (List (ℤ × ℤ))
  | 0, _, _, _, _ => none
  | fuel + 1, x1, y1, err, acc =>
      if x1 = x2 ∧ y1 = y2 then some (acc ++ [(x1, y1)])
      else
        let e2 := 2 * err
        lineAux x2 y2 dx dy sx sy fuel
          (if e2 > -dy then x1 + sx else x1)
          (if e2 < dx then y1 + sy else y1)
          (err - (if e2 > -dy then dy else 0) + (if e2 < dx then dx else 0))
          (acc ++ [(x1, y1)])

/-- `line(start, end)` (src/main.cpp lines 189-216): Bresenham stepping
between the rounded endpoints. Returns the sequence of pixel coordinates
the loop passes to `pixel`, or `none` if the loop fails to break within
`dx + dy + 1` iterations (the termination theorem shows it never does). -/
def line (startV endV : Vec3) : Option (List (ℤ × ℤ)) :=
  let x1 := roundF startV.x
  let y1 := roundF startV.y
  let x2 := roundF endV.x
  let y2 := roundF endV.y
  let dx := |x2 - x1|
  let dy := |y2 - y1|
  let sx : ℤ := if x1 < x2 then 1 else -1
  let sy : ℤ := if y1 < y2 then 1 else -1
  let err := dx - dy
  lineAux x2 y2 dx dy sx sy (dx + dy + 1).toNat x1 y1 err []

/-- Invariant-carrying induction for the Bresenham loop: after `a` x-steps
and `b` y-steps the state is determined, the step counts never exceed
`dx`, `dy`, and the loop breaks — at exactly the second endpoint — before
the remaining measure `(dx - a) + (dy - b)` rounds of fuel run out. -/
theorem lineAux_reaches (dx dy : ℤ) (hdx : 0 ≤ dx) (hdy : 0 ≤ dy)
    (sx sy : ℤ) (hsx : sx = 1 ∨ sx = -1) (hsy : sy = 1 ∨ sy = -1)
    (x0 y0 : ℤ) :
    ∀ fuel : ℕ, ∀ a b : ℤ, 0 ≤ a → a ≤ dx → 0 ≤ b → b ≤ dy →
      (dx - a) + (dy - b) < (fuel : ℤ) → ∀ acc : List (ℤ × ℤ),
      ∃ px, lineAux (x0 + dx * sx) (y0 + dy * sy) dx dy sx sy fuel
              (x0 + a * sx) (y0 + b * sy)
              ((dx - dy) - a * dy + b * dx) acc = some px ∧
            px.getLast? = some (x0 + dx * sx, y0 + dy * sy) := by
  intro fuel
  induction fuel with
  | zero =>
      intro a b ha hadx hb hbdy hfuel acc
      exfalso
      simp only [Nat.cast_zero] at hfuel
      omega
  | succ fuel ih =>
      intro a b ha hadx hb hbdy hfuel acc
      have hsx0 : sx ≠ 0 := by rcases hsx with h | h <;> simp [h]
      have hsy0 : sy ≠ 0 := by rcases hsy with h | h <;> simp [h]
      by_cases hend : a = dx ∧ b = dy
      · obtain ⟨hA, hB⟩ := hend
        subst hA
        subst hB
        refine ⟨acc ++ [(x0 + a * sx, y0 + b * sy)], ?_, ?_⟩
        · rw [lineAux, if_pos ⟨rfl, rfl⟩]
        · simp
      · have hcond : ¬(x0 + a * sx = x0 + dx * sx ∧
            y0 + b * sy = y0 + dy * sy) := by
          intro ⟨h1, h2⟩
          apply hend
          constructor
          · have := mul_right_cancel₀ hsx0 (by linarith : a * sx = dx * sx)
            exact this
          · have := mul_right_cancel₀ hsy0 (by linarith : b * sy = dy * sy)
            exact this
        rw [lineAux, if_neg hcond]
        set err := (dx - dy) - a * dy + b * dx with herr
        set e2 := 2 * err with he2
        -- If neither step condition fires, both dx and dy collapse to 0,
        -- contradicting that we are not yet at the endpoint.
        have hstall : e2 > -dy ∨ e2 < dx := by
          by_contra hno
          push_neg at hno
          obtain ⟨h1, h2⟩ := hno
          have hdx0 : dx = 0 := by linarith
          have hdy0 : dy = 0 := by linarith
          exact hend ⟨by omega, by omega⟩
        -- At the x-target the x-step condition cannot fire.
        have hxcap : a = dx → ¬(e2 > -dy) := by
          intro hA hgt
          have hblt : b ≤ dy - 1 := by
            rcases lt_or_eq_of_le hbdy with h | h
            · omega
            · exact absurd ⟨hA, h⟩ hend
          rw [he2, herr, hA] at hgt
          nlinarith [mul_le_mul_of_nonneg_left hblt (by linarith : (0:ℤ) ≤ 2 * dx)]
        -- At the y-target the y-step condition cannot fire.
        have hycap : b = dy → ¬(e2 < dx) := by
          intro hB hlt
          have halt : a ≤ dx - 1 := by
            rcases lt_or_eq_of_le hadx with h | h
            · omega
            · exact absurd ⟨h, hB⟩ hend
          rw [he2, herr, hB] at hlt
          nlinarith [mul_le_mul_of_nonneg_left halt (by linarith : (0:ℤ) ≤ 2 * dy)]
        by_cases hxs : e2 > -dy <;> by_cases hys : e2 < dx
        · -- both step
          have ha2 : a + 1 ≤ dx := by
            rcases lt_or_eq_of_le hadx with h | h
            · omega
            · exact absurd hxs (hxcap h)
          have hb2 : b + 1 ≤ dy := by
            rcases lt_or_eq_of_le hbdy with h | h
            · omega
            · exact absurd hys (hycap h)
          obtain ⟨px, h1, h2⟩ := ih (a + 1) (b + 1) (by omega) ha2 (by omega)
            hb2 (by push_cast at hfuel; omega)
            (acc ++ [(x0 + a * sx, y0 + b * sy)])
          refine ⟨px, ?_, h2⟩
          simp only [if_pos hxs, if_pos hys]
          have ex : x0 + a * sx + sx = x0 + (a + 1) * sx := by ring
          have ey : y0 + b * sy + sy = y0 + (b + 1) * sy := by ring
          have ee : err - dy + dx = (dx - dy) - (a + 1) * dy + (b + 1) * dx := by
            rw [herr]; ring
          rw [ex, ey, ee]
          exact h1
        · -- x-step only
          have ha2 : a + 1 ≤ dx := by
            rcases lt_or_eq_of_le hadx with h | h
            · omega
            · exact absurd hxs (hxcap h)
          obtain ⟨px, h1, h2⟩ := ih (a + 1) b (by omega) ha2 hb hbdy
            (by push_cast at hfuel; omega)
            (acc ++ [(x0 + a * sx, y0 + b * sy)])
          refine ⟨px, ?_, h2⟩
          simp only [if_pos hxs, if_neg hys]
          have ex : x0 + a * sx + sx = x0 + (a + 1) * sx := by ring
          have ee : err - dy + 0 = (dx - dy) - (a + 1) * dy + b * dx := by
            rw [herr]; ring
          rw [ex, ee]
          exact h1
        · -- y-step only
          have hb2 : b + 1 ≤ dy := by
            rcases lt_or_eq_of_le hbdy with h | h
            · omega
            · exact absurd hys (hycap h)
          obtain ⟨px, h1, h2⟩ := ih a (b + 1) ha hadx (by omega) hb2
            (by push_cast at hfuel; omega)
            (acc ++ [(x0 + a * sx, y0 + b * sy)])
          refine ⟨px, ?_, h2⟩
          simp only [if_neg hxs, if_pos hys]
          have ey : y0 + b * sy + sy = y0 + (b + 1) * sy := by ring
          have ee : err - 0 + dx = (dx - dy) - a * dy + (b + 1) * dx := by
            rw [herr]; ring
          rw [ey, ee]
          exact h1
        · exact absurd hstall (by simp [hxs, hys])

/-- C10: for every pair of endpoints (whose coordinates are rounded to
integers by the source), the Bresenham loop terminates within its fuel
budget and its last written pixel is the rounded second endpoint; hence a
render pass, a finite sequence of such loops, runs to completion. -/
theorem line_terminates (startV endV : Vec3) :
    ∃ px, line startV endV = some px ∧
      px.getLast? = some (roundF endV.x, roundF endV.y) := by
  have hdx0 : (0 : ℤ) ≤ |roundF endV.x - roundF startV.x| := abs_nonneg _
  have hdy0 : (0 : ℤ) ≤ |roundF endV.y - roundF startV.y| := abs_nonneg _
  have hsx1 : (if roundF startV.x < roundF endV.x then (1 : ℤ) else -1) = 1 ∨
      (if roundF startV.x < roundF endV.x then (1 : ℤ) else -1) = -1 := by
    split <;> simp
  have hsy1 : (if roundF startV.y < roundF endV.y then (1 : ℤ) else -1) = 1 ∨
      (if roundF startV.y < roundF endV.y then (1 : ℤ) else -1) = -1 := by
    split <;> simp
  have hex : roundF startV.x + |roundF endV.x - roundF startV.x| *
      (if roundF startV.x < roundF endV.x then (1 : ℤ) else -1) =
      roundF endV.x := by
    rcases lt_or_ge (roundF startV.x) (roundF endV.x) with h | h
    · rw [if_pos h, abs_of_nonneg (by linarith :
        (0 : ℤ) ≤ roundF endV.x - roundF startV.x)]
      ring
    · rw [if_neg (not_lt.mpr h), abs_of_nonpos (by linarith :
        roundF endV.x - roundF startV.x ≤ 0)]
      ring
  have hey : roundF startV.y + |roundF endV.y - roundF startV.y| *
      (if roundF startV.y < roundF endV.y then (1 : ℤ) else -1) =
      roundF endV.y := by
    rcases lt_or_ge (roundF startV.y) (roundF endV.y) with h | h
    · rw [if_pos h, abs_of_nonneg (by linarith :
        (0 : ℤ) ≤ roundF endV.y - roundF startV.y)]
      ring
    · rw [if_neg (not_lt.mpr h), abs_of_nonpos (by linarith :
        roundF endV.y - roundF startV.y ≤ 0)]
      ring
  obtain ⟨px, h1, h2⟩ := lineAux_reaches
    |roundF endV.x - roundF startV.x| |roundF endV.y - roundF startV.y|
    hdx0 hdy0
    (if roundF startV.x < roundF endV.x then (1 : ℤ) else -1)
    (if roundF startV.y < roundF endV.y then (1 : ℤ) else -1)
    hsx1 hsy1 (roundF startV.x) (roundF startV.y)
    (|roundF endV.x - roundF startV.x| +
      |roundF endV.y - roundF startV.y| + 1).toNat
    0 0 le_rfl hdx0 le_rfl hdy0
    (by rw [Int.toNat_of_nonneg (by linarith)]; linarith) []
  rw [hex, hey] at h1 h2
  refine ⟨px, ?_, h2⟩
  have hz : ∀ z w : ℤ, z + 0 * w = z := by intro z w; ring
  rw [hz, hz] at h1
  have he : |roundF endV.x - roundF startV.x| -
      |roundF endV.y - roundF startV.y| -
      0 * |roundF endV.y - roundF startV.y| +
      0 * |roundF endV.x - roundF startV.x| =
      |roundF endV.x - roundF startV.x| -
      |roundF endV.y - roundF startV.y| := by ring
  rw [he] at h1
  exact h1

/-- One `std::array<int, 3>` vertex reference of a `Face`
(src/main.cpp line 155): `vi` is `indices[0]` (position), `ti` is
`indices[1]` (texture), `ni` is `indices[2]` (normal); rendering reads
only `vi`. -/
structure Idx3 where
  vi : ℤ
  ti : ℤ
  ni : ℤ
deriving DecidableEq, Repr

/-- `Face` from src/main.cpp (struct Face). -/
structure Face where
  vertexIndices : List Idx3
deriving DecidableEq, Repr

/-- The C++ integral conversion from `int` to the 64-bit `size_t` applied
in `idx[0] >= transformedVertices.size()` and in `operator[]`: reduction
modulo 2^64 (negative ints wrap to huge unsigned values). -/
def intToSizeT (i : ℤ) : ℕ := (i % (2 ^ 64 : ℤ)).toNat

/-- The per-face validity scan of `render` (src/main.cpp lines 376-384):
the face is valid iff no reference has `idx[0] >=
transformedVertices.size()` under the int-to-size_t conversion. -/
def validFace (n : ℕ) (f : Face) : Bool :=
  f.vertexIndices.all fun idx => decide (intToSizeT idx.vi < n)

/-- `transformedVertices[idx[0]]`: vector indexing with the int index
converted to size_t. -/
def atIdx (tv : List Vec3) (i : ℤ) : Vec3 := tv.getD (intToSizeT i) ⟨0, 0, 0⟩

/-- The body of the face loop of `render` (src/main.cpp lines 373-411) for
one face, recorded as the list of `triangle(...)` calls it issues: a face
with fewer than 3 references draws nothing; a face failing the validity
scan is skipped (`continue`); otherwise `triangle(v1, v2, v3)` is drawn
and, when the face has exactly 4 references, also `triangle(v1, v3, v4)`.
(The `normalZ` back-face value computed in the source is dead code: the
culling test is commented out.) -/
def renderFace (tv : List Vec3) (f : Face) : List (Vec3 × Vec3 × Vec3) :=
  if 3 ≤ f.vertexIndices.length then
    if validFace tv.length f then
      let v1 := atIdx tv (f.vertexIndices.getD 0 ⟨0, 0, 0⟩).vi
      let v2 := atIdx tv (f.vertexIndices.getD 1 ⟨0, 0, 0⟩).vi
      let v3 := atIdx tv (f.vertexIndices.getD 2 ⟨0, 0, 0⟩).vi
      (v1, v2, v3) ::
        (if f.vertexIndices.length = 4 then
          [(v1, v3, atIdx tv (f.vertexIndices.getD 3 ⟨0, 0, 0⟩).vi)]
        else [])
    else []
  else []

/-- The whole face loop of `render`: the triangle calls of every face in
order. -/
def renderFaces (tv : List Vec3) (faces : List Face) :
    List (Vec3 × Vec3 × Vec3) :=
  faces.flatMap (renderFace tv)

/-- C3: a face with exactly 4 in-range position indices draws exactly the
two triangle outlines (v0, v1, v2) and (v0, v2, v3), in that order, where
vk is the transformed vertex selected by the face's k-th position index —
and nothing else. -/
theorem quad_renders_two_triangles (tv : List Vec3) (f : Face)
    (h4 : f.vertexIndices.length = 4)
    (hn : (tv.length : ℤ) ≤ 2 ^ 64)
    (hvalid : ∀ idx ∈ f.vertexIndices, 0 ≤ idx.vi ∧ idx.vi < (tv.length : ℤ)) :
    renderFace tv f =
      [(atIdx tv (f.vertexIndices.getD 0 ⟨0, 0, 0⟩).vi,
        atIdx tv (f.vertexIndices.getD 1 ⟨0, 0, 0⟩).vi,
        atIdx tv (f.vertexIndices.getD 2 ⟨0, 0, 0⟩).vi),
       (atIdx tv (f.vertexIndices.getD 0 ⟨0, 0, 0⟩).vi,
        atIdx tv (f.vertexIndices.getD 2 ⟨0, 0, 0⟩).vi,
        atIdx tv (f.vertexIndices.getD 3 ⟨0, 0, 0⟩).vi)] := by
  have hv : validFace tv.length f = true := by
    simp only [validFace, List.all_eq_true, decide_eq_true_eq]
    intro idx hidx
    obtain ⟨h0, hlt⟩ := hvalid idx hidx
    simp only [intToSizeT]
    omega
  rw [renderFace, if_pos (by omega : 3 ≤ f.vertexIndices.length), if_pos hv]
  simp only [if_pos h4]

/-- Witness for C3: a concrete quad over four concrete vertices. -/
theorem quad_renders_two_triangles_witness :
    (Face.mk [⟨0, 0, 0⟩, ⟨1, 0, 0⟩, ⟨2, 0, 0⟩, ⟨3, 0, 0⟩]).vertexIndices.length
        = 4 ∧
    (([(⟨0, 0, 0⟩ : Vec3), ⟨4, 0, 0⟩, ⟨4, 4, 0⟩, ⟨0, 4, 0⟩].length : ℤ)
        ≤ 2 ^ 64) ∧
    (∀ idx ∈ (Face.mk [⟨0, 0, 0⟩, ⟨1, 0, 0⟩, ⟨2, 0, 0⟩,
        ⟨3, 0, 0⟩]).vertexIndices,
      0 ≤ idx.vi ∧
      idx.vi < (([(⟨0, 0, 0⟩ : Vec3), ⟨4, 0, 0⟩, ⟨4, 4, 0⟩,
        ⟨0, 4, 0⟩].length : ℤ))) ∧
    renderFace [⟨0, 0, 0⟩, ⟨4, 0, 0⟩, ⟨4, 4, 0⟩, ⟨0, 4, 0⟩]
        (Face.mk [⟨0, 0, 0⟩, ⟨1, 0, 0⟩, ⟨2, 0, 0⟩, ⟨3, 0, 0⟩]) =
      [(atIdx [⟨0, 0, 0⟩, ⟨4, 0, 0⟩, ⟨4, 4, 0⟩, ⟨0, 4, 0⟩]
          ((Face.mk [⟨0, 0, 0⟩, ⟨1, 0, 0⟩, ⟨2, 0, 0⟩,
            ⟨3, 0, 0⟩]).vertexIndices.getD 0 ⟨0, 0, 0⟩).vi,
        atIdx [⟨0, 0, 0⟩, ⟨4, 0, 0⟩, ⟨4, 4, 0⟩, ⟨0, 4, 0⟩]
          ((Face.mk [⟨0, 0, 0⟩, ⟨1, 0, 0⟩, ⟨2, 0, 0⟩,
            ⟨3, 0, 0⟩]).vertexIndices.getD 1 ⟨0, 0, 0⟩).vi,
        atIdx [⟨0, 0, 0⟩, ⟨4, 0, 0⟩, ⟨4, 4, 0⟩, ⟨0, 4, 0⟩]
          ((Face.mk [⟨0, 0, 0⟩, ⟨1, 0, 0⟩, ⟨2, 0, 0⟩,
            ⟨3, 0, 0⟩]).vertexIndices.getD 2 ⟨0, 0, 0⟩).vi),
       (atIdx [⟨0, 0, 0⟩, ⟨4, 0, 0⟩, ⟨4, 4, 0⟩, ⟨0, 4, 0⟩]
          ((Face.mk [⟨0, 0, 0⟩, ⟨1, 0, 0⟩, ⟨2, 0, 0⟩,
            ⟨3, 0, 0⟩]).vertexIndices.getD 0 ⟨0, 0, 0⟩).vi,
        atIdx [⟨0, 0, 0⟩, ⟨4, 0, 0⟩, ⟨4, 4, 0⟩, ⟨0, 4, 0⟩]
          ((Face.mk [⟨0, 0, 0⟩, ⟨1, 0, 0⟩, ⟨2, 0, 0⟩,
            ⟨3, 0, 0⟩]).vertexIndices.getD 2 ⟨0, 0, 0⟩).vi,
        atIdx [⟨0, 0, 0⟩, ⟨4, 0, 0⟩, ⟨4, 4, 0⟩, ⟨0, 4, 0⟩]
          ((Face.mk [⟨0, 0, 0⟩, ⟨1, 0, 0⟩, ⟨2, 0, 0⟩,
            ⟨3, 0, 0⟩]).vertexIndices.getD 3 ⟨0, 0, 0⟩).vi)] :=
  ⟨rfl, by norm_num,
   by
     intro idx hidx
     fin_cases hidx <;> constructor <;> norm_num,
   quad_renders_two_triangles _ _ rfl (by norm_num)
     (by intro idx hidx; fin_cases hidx <;> constructor <;> norm_num)⟩

/-- C9: during a render pass, a face with any out-of-range position index
— negative indices included, via the int-to-size_t wrap — is skipped
entirely (it contributes no triangle and hence no pixel), while the
surrounding faces render exactly as they would without it; the bad face
never aborts the pass. Ranges assume the C++ `int` width (indices in
[-2^31, 2^31)) and a vertex array that fits in memory
(at most 2^32 entries). -/
theorem render_skips_invalid (tv : List Vec3) (fs1 fs2 : List Face)
    (f : Face)
    (hn : (tv.length : ℤ) ≤ 2 ^ 32)
    (hrange : ∀ idx ∈ f.vertexIndices,
      -(2 ^ 31) ≤ idx.vi ∧ idx.vi < 2 ^ 31)
    (hbad : ∃ idx ∈ f.vertexIndices,
      idx.vi < 0 ∨ (tv.length : ℤ) ≤ idx.vi) :
    renderFace tv f = [] ∧
    renderFaces tv (fs1 ++ f :: fs2) =
      renderFaces tv fs1 ++ renderFaces tv fs2 := by
  have hvf : ¬ validFace tv.length f = true := by
    simp only [validFace, List.all_eq_true, decide_eq_true_eq]
    intro hall
    obtain ⟨idx, hmem, hbad2⟩ := hbad
    have h1 := hall idx hmem
    obtain ⟨hlo, hhi⟩ := hrange idx hmem
    simp only [intToSizeT] at h1
    rcases hbad2 with h | h <;> omega
  have hvf2 : validFace tv.length f = false := by
    cases h : validFace tv.length f
    · rfl
    · exact absurd h hvf
  have hskip : renderFace tv f = [] := by
    simp [renderFace, hvf2]
  refine ⟨hskip, ?_⟩
  simp [renderFaces, List.flatMap_append, hskip]

/-- Witness for C9: a face referencing index -1 between two valid
triangles is dropped while both neighbours render. -/
theorem render_skips_invalid_witness :
    (([(⟨0, 0, 0⟩ : Vec3), ⟨4, 0, 0⟩, ⟨4, 4, 0⟩].length : ℤ) ≤ 2 ^ 32) ∧
    (∀ idx ∈ (Face.mk [⟨-1, 0, 0⟩, ⟨1, 0, 0⟩, ⟨2, 0, 0⟩]).vertexIndices,
      -(2 ^ 31) ≤ idx.vi ∧ idx.vi < 2 ^ 31) ∧
    (∃ idx ∈ (Face.mk [⟨-1, 0, 0⟩, ⟨1, 0, 0⟩, ⟨2, 0, 0⟩]).vertexIndices,
      idx.vi < 0 ∨
        (([(⟨0, 0, 0⟩ : Vec3), ⟨4, 0, 0⟩, ⟨4, 4, 0⟩].length : ℤ) ≤ idx.vi)) ∧
    renderFace [⟨0, 0, 0⟩, ⟨4, 0, 0⟩, ⟨4, 4, 0⟩]
        (Face.mk [⟨-1, 0, 0⟩, ⟨1, 0, 0⟩, ⟨2, 0, 0⟩]) = [] ∧
    renderFaces [⟨0, 0, 0⟩, ⟨4, 0, 0⟩, ⟨4, 4, 0⟩]
        ([Face.mk [⟨0, 0, 0⟩, ⟨1, 0, 0⟩, ⟨2, 0, 0⟩]] ++
          Face.mk [⟨-1, 0, 0⟩, ⟨1, 0, 0⟩, ⟨2, 0, 0⟩] ::
            [Face.mk [⟨2, 0, 0⟩, ⟨1, 0, 0⟩, ⟨0, 0, 0⟩]]) =
      renderFaces [⟨0, 0, 0⟩, ⟨4, 0, 0⟩, ⟨4, 4, 0⟩]
          [Face.mk [⟨0, 0, 0⟩, ⟨1, 0, 0⟩, ⟨2, 0, 0⟩]] ++
        renderFaces [⟨0, 0, 0⟩, ⟨4, 0, 0⟩, ⟨4, 4, 0⟩]
          [Face.mk [⟨2, 0, 0⟩, ⟨1, 0, 0⟩, ⟨0, 0, 0⟩]] :=
  ⟨by norm_num,
   by intro idx hidx; fin_cases hidx <;> constructor <;> norm_num,
   ⟨⟨-1, 0, 0⟩, by norm_num, by norm_num⟩,
   (render_skips_invalid [⟨0, 0, 0⟩, ⟨4, 0, 0⟩, ⟨4, 4, 0⟩]
     [Face.mk [⟨0, 0, 0⟩, ⟨1, 0, 0⟩, ⟨2, 0, 0⟩]]
     [Face.mk [⟨2, 0, 0⟩, ⟨1, 0, 0⟩, ⟨0, 0, 0⟩]]
     (Face.mk [⟨-1, 0, 0⟩, ⟨1, 0, 0⟩, ⟨2, 0, 0⟩]) (by norm_num)
     (by intro idx hidx; fin_cases hidx <;> constructor <;> norm_num)
     ⟨⟨-1, 0, 0⟩, by norm_num, by norm_num⟩).1,
   (render_skips_invalid [⟨0, 0, 0⟩, ⟨4, 0, 0⟩, ⟨4, 4, 0⟩]
     [Face.mk [⟨0, 0, 0⟩, ⟨1, 0, 0⟩, ⟨2, 0, 0⟩]]
     [Face.mk [⟨2, 0, 0⟩, ⟨1, 0, 0⟩, ⟨0, 0, 0⟩]]
     (Face.mk [⟨-1, 0, 0⟩, ⟨1, 0, 0⟩, ⟨2, 0, 0⟩]) (by norm_num)
     (by intro idx hidx; fin_cases hidx <;> constructor <;> norm_num)
     ⟨⟨-1, 0, 0⟩, by norm_num, by norm_num⟩).2⟩

/-- Splitting a character list at every separator (the behaviour of
`std::istringstream` token extraction and of the source's
`std::replace(vertexStr, slash, space)` followed by extraction): pieces
between separators, empty pieces included. -/
def splitBy (p : Char → Bool) : List Char → List (List Char)
  | [] => [[]]
  | c :: rest =>
      let r := splitBy p rest
      if p c then [] :: r
      else
        match r with
        | [] => [[c]]
        | t :: ts => (c :: t) :: ts

/-- Whitespace tokenisation as performed by `iss >> token`: split on
whitespace and drop empty pieces. -/
def tokenize (cs : List Char) : List (List Char) :=
  (splitBy (fun c => c.isWhitespace) cs).filter (fun t => t ≠ [])

/-- Numeric value of a digit run (most significant first). -/
def digitsToNat (ds : List Char) : ℕ :=
  ds.foldl (fun n c => 10 * n + (c.toNat - 48)) 0

/-- `istringstream >> int` applied to one token: an optional sign followed
by a digit run; extraction fails (returning `none`, which the C++11 stream
reports by setting the target to 0 and raising failbit) when no digit is
present. Stream extraction consumes the longest numeric prefix; tokens in
the mesh format are entirely numeric, so prefix parsing is modelled with
`takeWhile`. -/
def parseIntTok (cs : List Char) : Option ℤ :=
  let sb : ℤ × List Char :=
    match cs with
    | [] => (1, [])
    | c :: rest =>
        if c = '-' then (-1, rest)
        else if c = '+' then (1, rest)
        else (1, c :: rest)
  let ds := sb.2.takeWhile Char.isDigit
  if ds.length = 0 then none
  else some (sb.1 * (digitsToNat ds : ℤ))

/-- `istringstream >> float` applied to one token, for the decimal forms
`[sign]digits[.digits]` and `[sign].digits` that the mesh format uses
(exponent and hexadecimal float syntax do not occur in the format). -/
def parseFloatTok (cs : List Char) : Option ℚ :=
  let sb : ℚ × List Char :=
    match cs with
    | [] => (1, [])
    | c :: rest =>
        if c = '-' then (-1, rest)
        else if c = '+' then (1, rest)
        else (1, c :: rest)
  let ipart := sb.2.takeWhile Char.isDigit
  let rest2 := sb.2.dropWhile Char.isDigit
  let fpart :=
    match rest2 with
    | [] => []
    | c :: r => if c = '.' then r.takeWhile Char.isDigit else []
  if ipart.length = 0 ∧ fpart.length = 0 then none
  else some (sb.1 * ((digitsToNat ipart : ℚ) +
    (digitsToNat fpart : ℚ) / (10 : ℚ) ^ fpart.length))

/-- `iss >> vertex.x >> vertex.y >> vertex.z` on the tokens after `v`
(src/main.cpp lines 241-242): `Vec3` defaults to (0,0,0); a failed
extraction leaves 0 (C++11 sets the target to 0 on failure) and puts the
stream in a fail state, so later extractions also leave 0. -/
def vec3FromToks (toks : List (List Char)) : Vec3 :=
  match parseFloatTok (toks.getD 0 []) with
  | none => ⟨0, 0, 0⟩
  | some x =>
    match parseFloatTok (toks.getD 1 []) with
    | none => ⟨x, 0, 0⟩
    | some y =>
      match parseFloatTok (toks.getD 2 []) with
      | none => ⟨x, y, 0⟩
      | some z => ⟨x, y, z⟩

/-- One face vertex-reference token (src/main.cpp lines 250-266):
`indices` starts as {0,0,0}; slashes are replaced by spaces and up to
three ints are extracted; `indices[0]` is decremented unconditionally
(also after a failed extraction, where the C++11 stream left it 0),
`indices[1]` and `indices[2]` only when their extraction succeeded. -/
def parseVertexRef (cs : List Char) : Idx3 :=
  let toks := (splitBy (fun c => c = '/') cs).filter (fun t => t ≠ [])
  match parseIntTok (toks.getD 0 []) with
  | none => ⟨0 - 1, 0, 0⟩
  | some i0 =>
    match parseIntTok (toks.getD 1 []) with
    | none => ⟨i0 - 1, 0, 0⟩
    | some i1 =>
      match parseIntTok (toks.getD 2 []) with
      | none => ⟨i0 - 1, i1 - 1, 0⟩
      | some i2 => ⟨i0 - 1, i1 - 1, i2 - 1⟩

/-- One line of the OBJ loader loop (src/main.cpp lines 234-270): a line
whose first token is `v` appends a vertex, one whose first token is `f`
appends a face built from all remaining tokens; all other lines are
ignored. -/
def processLine (acc : List Vec3 × List Face) (l : String) :
    List Vec3 × List Face :=
  match tokenize l.toList with
  | [] => acc
  | pfx :: rest =>
    if pfx = ['v'] then (acc.1 ++ [vec3FromToks rest], acc.2)
    else if pfx = ['f'] then (acc.1, acc.2 ++ [Face.mk (rest.map parseVertexRef)])
    else acc

/-- `loadOBJ(path, out_vertices, out_faces)` (src/main.cpp lines 226-276).
The file system is modelled by the argument: `none` stands for a path that
cannot be opened (`!file.is_open()`), `some ls` for a readable file with
lines `ls`. On failure the function returns false without touching the
by-reference outputs; on success it appends the parsed vertices and faces
and returns true. -/
def loadOBJ (file : Option (List String)) (out_vertices : List Vec3)
    (out_faces : List Face) : Bool × List Vec3 × List Face :=
  match file with
  | none => (false, out_vertices, out_faces)
  | some ls =>
    let r := ls.foldl processLine (out_vertices, out_faces)
    (true, r.1, r.2)

/-- C7: loading from a path that cannot be opened returns the failure
indicator `false` (no exception is modelled or needed — the function is
total), and the output vertex and face collections — freshly
default-constructed by the caller, as in `main` — are both empty after
the call. -/
theorem loadOBJ_missing_file :
    loadOBJ none [] [] = (false, [], []) := rfl

/-- C8: loading the mesh text `v 0 0 0`, `v 1 0 0`, `v 0 1 0`, `f 1 2 3`
succeeds and produces exactly 3 vertices and 1 face whose position indices
are 0, 1, 2 in order (the 1-based indices of the format decremented). -/
theorem loadOBJ_roundtrip :
    loadOBJ (some ["v 0 0 0", "v 1 0 0", "v 0 1 0", "f 1 2 3"]) [] [] =
      (true, [⟨0, 0, 0⟩, ⟨1, 0, 0⟩, ⟨0, 1, 0⟩],
        [Face.mk [⟨0, 0, 0⟩, ⟨1, 0, 0⟩, ⟨2, 0, 0⟩]]) := by
  simp [loadOBJ, processLine, tokenize, splitBy, vec3FromToks,
    parseFloatTok, parseIntTok, parseVertexRef, digitsToNat, List.foldl,
    List.filter, List.getD, List.takeWhile, List.dropWhile,
    Char.isWhitespace, Char.isDigit, String.toList]

end Lab4
